import Mathlib

/-!
Shallow embedding of the reusable logic of the Playwright-Nesto test suite:
the Response Verifier and JSON-value model (tests/utils, part_004), the
validators and password generator (part_004), the Province Catalog
(tests/types/provinces.types.ts) and the Locale Configuration Loader
(tests/utils/locale-loader.ts), together with theorems settling the frozen
claims about them.

JavaScript values flowing through the verifier are modelled by the mutual
inductive JsValue / JsMembers below: strings, integer-valued numbers,
booleans, null, undefined and objects given as ordered association lists.
Own properties, optional chaining, boxed-primitive access on strings
(length and character indices) and the standard prototype methods
(carried as opaque builtin function values) are modelled; object
reference identity, accessor properties such as the proto accessor, the
own name and length properties of function values, and engine-specific
prototype additions are outside the model. JavaScript string length is
modelled as the number of characters.
-/

mutual

/-- Values of the JavaScript payloads the Response Verifier inspects
(decoded JSON plus the distinguished undefined value). Objects are ordered
member lists with unique keys; a builtin value is an inherited native
method of a standard prototype, identified by the prototype it lives on
and its property key (its callable behavior is outside the model). -/
inductive JsValue where
  | str : String → JsValue
  | num : Int → JsValue
  | bool : Bool → JsValue
  | null : JsValue
  | undefined : JsValue
  | obj : JsMembers → JsValue
  | builtin : String → String → JsValue

/-- The member list of a JavaScript object value. -/
inductive JsMembers where
  | nil : JsMembers
  | cons : String → JsValue → JsMembers → JsMembers

end

/-- JavaScript own-property lookup on an object member list: the value
stored under the key when the object has that own property. -/
def jsMembersGet? : JsMembers → String → Option JsValue
  | .nil, _ => none
  | .cons k v rest, key => if k == key then some v else jsMembersGet? rest key

/-- The methods of Object.prototype, the end of every prototype chain in
the model (the constructor property and accessor properties such as the
proto accessor are outside the model). -/
def objectProtoMethods : List String :=
  ["hasOwnProperty", "isPrototypeOf", "propertyIsEnumerable", "toLocaleString",
   "toString", "valueOf", "__defineGetter__", "__defineSetter__",
   "__lookupGetter__", "__lookupSetter__"]

/-- The methods of String.prototype reachable through boxed-primitive
property access on a string (engine-version-specific additions are
outside the model). -/
def stringProtoMethods : List String :=
  ["at", "charAt", "charCodeAt", "codePointAt", "concat", "endsWith",
   "includes", "indexOf", "lastIndexOf", "localeCompare", "match", "matchAll",
   "normalize", "padEnd", "padStart", "repeat", "replace", "replaceAll",
   "search", "slice", "split", "startsWith", "substring", "substr",
   "toLowerCase", "toLocaleLowerCase", "toUpperCase", "toLocaleUpperCase",
   "trim", "trimStart", "trimEnd", "toString", "valueOf", "anchor", "big",
   "blink", "bold", "fixed", "fontcolor", "fontsize", "italics", "link",
   "small", "strike", "sub", "sup"]

/-- The methods of Number.prototype. -/
def numberProtoMethods : List String :=
  ["toString", "toLocaleString", "valueOf", "toFixed", "toExponential",
   "toPrecision"]

/-- The methods of Boolean.prototype. -/
def booleanProtoMethods : List String := ["toString", "valueOf"]

/-- The methods of Function.prototype (the own name and length properties
of function values are outside the model). -/
def functionProtoMethods : List String := ["apply", "bind", "call", "toString"]

/-- A prototype-chain lookup: the receiver's own prototype first, then
Object.prototype, and undefined when neither has the key. -/
def protoChainLookup (protoName : String) (methods : List String)
    (key : String) : JsValue :=
  if methods.contains key then .builtin protoName key
  else if objectProtoMethods.contains key then .builtin "Object.prototype" key
  else .undefined

/-- The canonical numeric string property keys (no sign, no leading
zero): the keys under which a string exposes its characters. -/
def canonicalIndex? (key : String) : Option Nat :=
  match key.data with
  | [] => none
  | ['0'] => some 0
  | c :: cs =>
    if ('1' ≤ c && c ≤ '9') && cs.all (fun d => '0' ≤ d && d ≤ '9') then
      some ((c :: cs).foldl (fun a d => a * 10 + (d.toNat - '0'.toNat)) 0)
    else none

/-- One step of optional-chained indexing, embedding the source expression
current?.[key]: undefined on null and undefined (the optional chain
short-circuits); own property or inherited Object.prototype method on an
object; length, character-index access or a prototype method on a string
(boxed-primitive access); and a prototype method on the other primitives
and on function values. -/
def jsGet : JsValue → String → JsValue
  | .null, _ => .undefined
  | .undefined, _ => .undefined
  | .str s, key =>
    if key == "length" then .num s.length
    else
      match canonicalIndex? key with
      | some i =>
        match s.data[i]? with
        | some c => .str (String.mk [c])
        | none => protoChainLookup "String.prototype" stringProtoMethods key
      | none => protoChainLookup "String.prototype" stringProtoMethods key
  | .num _, key => protoChainLookup "Number.prototype" numberProtoMethods key
  | .bool _, key => protoChainLookup "Boolean.prototype" booleanProtoMethods key
  | .builtin _ _, key => protoChainLookup "Function.prototype" functionProtoMethods key
  | .obj ms, key =>
    match jsMembersGet? ms key with
    | some v => v
    | none => protoChainLookup "Object.prototype" objectProtoMethods key

/-- Whether a value is an object (the only values with own properties in
this model). -/
def isObjJs : JsValue → Bool
  | .obj _ => true
  | _ => false

/-- Embeds the JavaScript test fieldValue !== undefined. -/
def jsIsUndefined : JsValue → Bool
  | .undefined => true
  | _ => false

/-- Embeds the JavaScript test fieldValue !== null. -/
def jsIsNull : JsValue → Bool
  | .null => true
  | _ => false

/-- fieldValue !== undefined && fieldValue !== null, the definedness test
used by the verifier. -/
def isDefinedJs (v : JsValue) : Bool := !jsIsUndefined v && !jsIsNull v

/-- Splits a character list at every occurrence of the separator, embedding
the JavaScript String.prototype.split with a one-character separator
(an empty string splits to a single empty piece). -/
def splitOnChar (sep : Char) : List Char → List (List Char)
  | [] => [[]]
  | c :: cs =>
    match splitOnChar sep cs with
    | [] => []
    | w :: ws => if c = sep then [] :: w :: ws else (c :: w) :: ws

/-- The key list of a dot-separated field path, embedding
path.split(Chr46) from getNestedValue. -/
def splitPath (path : String) : List String :=
  (splitOnChar '.' path.data).map String.mk

/-- Embeds getNestedValue (part_004 lines 76-78): traverse the payload
key-by-key along the dot-separated path by a left fold of optional-chained
indexing, starting from the payload itself. -/
def getNestedValue (obj : JsValue) (path : String) : JsValue :=
  (splitPath path).foldl jsGet obj

/-- Hexadecimal digit character for a value below 16, as produced in JSON
string escapes. -/
def hexDigitChar (n : Nat) : Char :=
  if n < 10 then Char.ofNat ('0'.toNat + n) else Char.ofNat ('a'.toNat + n - 10)

/-- JSON escaping of one character, as JSON.stringify performs on the
characters of a string value. -/
def jsonQuoteChar (c : Char) : List Char :=
  if c = '"' then ['\\', '"']
  else if c = '\\' then ['\\', '\\']
  else if c = '\n' then ['\\', 'n']
  else if c = '\t' then ['\\', 't']
  else if c = '\r' then ['\\', 'r']
  else if c = '\x08' then ['\\', 'b']
  else if c = '\x0c' then ['\\', 'f']
  else if c.toNat < 0x20 then
    ['\\', 'u', '0', '0', hexDigitChar (c.toNat / 16), hexDigitChar (c.toNat % 16)]
  else [c]

/-- JSON quotation of a string value: surrounding double quotes with the
member characters escaped. -/
def jsonQuote (s : String) : String :=
  String.mk ('"' :: (s.data.map jsonQuoteChar).flatten ++ ['"'])

/-- Indentation of n levels of two spaces, as JSON.stringify(x, null, 2)
emits. -/
def jsonPad (n : Nat) : String := String.mk (List.replicate (2 * n) ' ')

/-- Textual form of a JavaScript number (integral in this model), as JSON
and string coercion print it. -/
def jsNumToString (n : Int) : String := toString n

mutual

/-- Embeds JSON.stringify(v, null, 2): pretty-printed JSON at the given
nesting depth; none encodes the JavaScript undefined result (undefined
values, which stringify omits as members and maps to undefined at top
level). -/
def jsonStringify : Nat → JsValue → Option String
  | _, .undefined => none
  | _, .builtin _ _ => none
  | _, .null => some "null"
  | _, .bool b => some (if b then "true" else "false")
  | _, .num n => some (jsNumToString n)
  | _, .str s => some (jsonQuote s)
  | d, .obj ms =>
    match jsonMembers (d + 1) ms with
    | [] => some "\x7b\x7d"
    | items => some ("\x7b\n" ++ String.intercalate ",\n" items ++ "\n" ++ jsonPad d ++ "\x7d")

/-- The pretty-printed member lines of an object, omitting members whose
value is undefined. -/
def jsonMembers : Nat → JsMembers → List String
  | _, .nil => []
  | d, .cons k v rest =>
    match jsonStringify d v with
    | none => jsonMembers d rest
    | some s => (jsonPad d ++ jsonQuote k ++ ": " ++ s) :: jsonMembers d rest

end

mutual

/-- Embeds JSON.stringify(v) without indentation (compact form), used for
the expected value inside the missing-field diagnostic. -/
def jsonStringifyCompact : JsValue → Option String
  | .undefined => none
  | .builtin _ _ => none
  | .null => some "null"
  | .bool b => some (if b then "true" else "false")
  | .num n => some (jsNumToString n)
  | .str s => some (jsonQuote s)
  | .obj ms =>
    some ("\x7b" ++ String.intercalate "," (jsonMembersCompact ms) ++ "\x7d")

/-- The compact member fragments of an object, omitting members whose
value is undefined. -/
def jsonMembersCompact : JsMembers → List String
  | .nil => []
  | .cons k v rest =>
    match jsonStringifyCompact v with
    | none => jsonMembersCompact rest
    | some s => (jsonQuote k ++ ":" ++ s) :: jsonMembersCompact rest

end

/-- A JavaScript template literal fragment holding JSON.stringify(v, null, 2):
the stringified text, or the word undefined when stringify yields the
undefined value. This is the fullResponse string of the verifier. -/
def fullResponseString (responseBody : JsValue) : String :=
  match jsonStringify 0 responseBody with
  | some s => s
  | none => "undefined"

/-- Template-literal fragment holding JSON.stringify(expectedValue)
(compact), as interpolated in the missing-field diagnostic. -/
def compactStringifyTemplate (v : JsValue) : String :=
  match jsonStringifyCompact v with
  | some s => s
  | none => "undefined"

/-- Embeds the JavaScript String() coercion used by the contains comparison
and by template literals interpolating plain values. -/
def jsToString : JsValue → String
  | .str s => s
  | .num n => jsNumToString n
  | .bool b => if b then "true" else "false"
  | .null => "null"
  | .undefined => "undefined"
  | .obj _ => "[object Object]"
  | .builtin _ name => "function " ++ name ++ "() \x7b [native code] \x7d"

/-- Embeds JavaScript strict equality (triple equals) on the modelled
values: structural on primitives, equal between two builtin values exactly
when they are the same prototype member (the same native function object),
and false between two structured values, which in this reference-free
model are distinct allocations. -/
def jsStrictEq : JsValue → JsValue → Bool
  | .str a, .str b => a == b
  | .num a, .num b => a == b
  | .bool a, .bool b => a == b
  | .null, .null => true
  | .undefined, .undefined => true
  | .builtin p a, .builtin q b => p == q && a == b
  | _, _ => false

/-- Whether the needle list occurs contiguously inside the haystack list,
embedding JavaScript String.prototype.includes on the character lists. -/
def jsIncludes : List Char → List Char → Bool
  | [], needle => needle.isEmpty
  | c :: t, needle => needle.isPrefixOf (c :: t) || jsIncludes t needle

/-- The comparison modes accepted by the Response Verifier. -/
inductive Comparison where
  | equals
  | contains
  | defined
deriving DecidableEq

/-- The verifier result record: isValid flag plus diagnostic message. -/
structure VerifyResult where
  isValid : Bool
  errorMessage : String
deriving DecidableEq

/-- Embeds verifyResponseBodyValue (part_004 lines 22-68): resolve the
field path, then dispatch on the comparison mode; defined checks presence
only, while equals and contains first fail on a missing (undefined or
null) resolved value and otherwise compare by strict equality or by
substring containment of the String() coercions. -/
def verifyResponseBodyValue (responseBody : JsValue) (fieldPath : String)
    (expectedValue : JsValue) (comparison : Comparison) : VerifyResult :=
  let fieldValue := getNestedValue responseBody fieldPath
  let fullResponse := fullResponseString responseBody
  match comparison with
  | .defined =>
    let isValid := !jsIsUndefined fieldValue && !jsIsNull fieldValue
    { isValid := isValid
      errorMessage :=
        if isValid then ""
        else fieldPath ++ " is missing or undefined. Full response: " ++ fullResponse }
  | c =>
    if jsIsUndefined fieldValue || jsIsNull fieldValue then
      { isValid := false
        errorMessage :=
          fieldPath ++ " is missing. Expected: " ++ compactStringifyTemplate expectedValue
            ++ ", but field is undefined. Full response: " ++ fullResponse }
    else
      match c with
      | .equals =>
        let isValid := jsStrictEq fieldValue expectedValue
        { isValid := isValid
          errorMessage :=
            if isValid then ""
            else "Expected " ++ fieldPath ++ " to equal \"" ++ jsToString expectedValue
              ++ "\", but got \"" ++ jsToString fieldValue ++ "\". Full response: " ++ fullResponse }
      | _ =>
        let fieldStr := jsToString fieldValue
        let expectedStr := jsToString expectedValue
        let isValid := jsIncludes fieldStr.data expectedStr.data
        { isValid := isValid
          errorMessage :=
            if isValid then ""
            else "Expected " ++ fieldPath ++ " to contain \"" ++ jsToString expectedValue
              ++ "\", but got \"" ++ jsToString fieldValue ++ "\". Full response: " ++ fullResponse }

/-- A call of verifyResponseBodyValue with the comparison argument omitted:
the TypeScript declaration defaults it to contains. -/
def verifyResponseBodyValueNoMode (responseBody : JsValue) (fieldPath : String)
    (expectedValue : JsValue) : VerifyResult :=
  verifyResponseBodyValue responseBody fieldPath expectedValue .contains

/-- The whitespace class of the JavaScript regular-expression escape
backslash-s, as matched inside the email pattern character class. -/
def isJsSpace (c : Char) : Bool :=
  c = '\t' || c = '\n' || c = '\x0b' || c = '\x0c' || c = '\r' || c = ' ' ||
  c = ' ' || c = ' ' || (' ' ≤ c && c ≤ ' ') ||
  c = ' ' || c = ' ' || c = ' ' || c = ' ' || c = '　' || c = '﻿'

/-- Membership in the character class of the email pattern: anything that
is neither whitespace nor the at sign. -/
def emailCharOk (c : Char) : Bool := !isJsSpace c && c != '@'

/-- Matches the anchored tail of the email pattern consisting of one or
more class characters up to the end of the string. -/
def emailPlusEnd (cs : List Char) : Bool := !cs.isEmpty && cs.all emailCharOk

/-- Matches the rest of the domain after its first character: zero or more
further class characters, then the literal dot, then one or more class
characters up to the end; the disjunction performs the backtracking over
the position of the literal dot. -/
def emailDomainTail : List Char → Bool
  | [] => false
  | c :: cs => (c == '.' && emailPlusEnd cs) || (emailCharOk c && emailDomainTail cs)

/-- Matches the domain part of the email pattern: one or more class
characters, a literal dot, then one or more class characters to the end. -/
def emailDomain : List Char → Bool
  | [] => false
  | c :: cs => emailCharOk c && emailDomainTail cs

/-- Matches the rest of the local part after its first character: zero or
more further class characters, then the at sign, then the domain. -/
def emailLocalTail : List Char → Bool
  | [] => false
  | c :: cs => (c == '@' && emailDomain cs) || (emailCharOk c && emailLocalTail cs)

/-- Embeds isValidEmail (part_004 lines 166-169): whether the whole string
matches the anchored pattern of one or more non-space non-at characters,
an at sign, one or more such characters, a dot, and one or more such
characters. -/
def isValidEmail (email : String) : Bool :=
  match email.data with
  | [] => false
  | c :: cs => emailCharOk c && emailLocalTail cs

/-- The character class of the regular expression bracket A to Z used by
the password validator. -/
def isUpperChar (c : Char) : Bool := 'A' ≤ c && c ≤ 'Z'

/-- The character class of the regular expression bracket a to z. -/
def isLowerChar (c : Char) : Bool := 'a' ≤ c && c ≤ 'z'

/-- The character class of the regular expression bracket 0 to 9. -/
def isDigitChar (c : Char) : Bool := '0' ≤ c && c ≤ '9'

/-- Error message pushed when the password is shorter than 12. -/
def passwordErrorMinLength : String := "Password must be at least 12 characters"

/-- Error message pushed when the password is longer than 32. -/
def passwordErrorMaxLength : String := "Password must be at most 32 characters"

/-- Error message pushed when the password has no uppercase letter. -/
def passwordErrorUppercase : String := "Password must contain at least one uppercase letter"

/-- Error message pushed when the password has no lowercase letter. -/
def passwordErrorLowercase : String := "Password must contain at least one lowercase letter"

/-- Error message pushed when the password has no digit. -/
def passwordErrorNumber : String := "Password must contain at least one number"

/-- The record returned by the password validator. -/
structure PasswordCheck where
  isValid : Bool
  errors : List String
deriving DecidableEq

/-- Embeds isValidPassword (part_004 lines 131-161): accumulate one error
per violated rule, in source push order, and report validity as the error
list being empty. -/
def isValidPassword (password : String) : PasswordCheck :=
  let errors :=
    (if password.length < 12 then [passwordErrorMinLength] else []) ++
    (if password.length > 32 then [passwordErrorMaxLength] else []) ++
    (if password.data.any isUpperChar = false then [passwordErrorUppercase] else []) ++
    (if password.data.any isLowerChar = false then [passwordErrorLowercase] else []) ++
    (if password.data.any isDigitChar = false then [passwordErrorNumber] else [])
  { isValid := errors.length == 0, errors := errors }

/-- The uppercase alphabet the password generator draws from. -/
def uppercaseChars : String := "ABCDEFGHIJKLMNOPQRSTUVWXYZ"

/-- The lowercase alphabet the password generator draws from. -/
def lowercaseChars : String := "abcdefghijklmnopqrstuvwxyz"

/-- The digits the password generator draws from. -/
def numberChars : String := "0123456789"

/-- allChars of the generator: the concatenation of the three alphabets. -/
def allChars : String := uppercaseChars ++ lowercaseChars ++ numberChars

/-- Embeds generateValidPassword (part_004 lines 102-126) with its random
source made explicit: u, l and n are the indices drawn for the mandatory
uppercase, lowercase and digit characters, rest holds the indices of the
nine remaining draws from allChars, and shuffle stands for the final
sort with a random comparator, which rearranges the twelve characters. -/
def generateValidPassword (u l n : Nat) (rest : List Nat)
    (shuffle : List Char → List Char) : String :=
  let randomUpper := uppercaseChars.data.getD u ' '
  let randomLower := lowercaseChars.data.getD l ' '
  let randomNumber := numberChars.data.getD n ' '
  let remaining := rest.map (fun i => allChars.data.getD i ' ')
  String.mk (shuffle (randomUpper :: randomLower :: randomNumber :: remaining))

/-- The closed enumeration of province and territory keys of
PROVINCE_CODES (provinces.types.ts lines 6-20), in declaration order. -/
inductive ProvinceKey where
  | ONTARIO
  | QUEBEC
  | ALBERTA
  | BRITISH_COLUMBIA
  | MANITOBA
  | NEW_BRUNSWICK
  | NOVA_SCOTIA
  | NEWFOUNDLAND
  | PRINCE_EDWARD_ISLAND
  | SASKATCHEWAN
  | NORTHWEST_TERRITORIES
  | YUKON
  | NUNAVUT
deriving DecidableEq

/-- The stable two-letter code of each province key, embedding the
PROVINCE_CODES constant object. -/
def PROVINCE_CODES : ProvinceKey → String
  | ProvinceKey.ONTARIO => "ON"
  | .QUEBEC => "QC"
  | .ALBERTA => "AB"
  | .BRITISH_COLUMBIA => "BC"
  | .MANITOBA => "MB"
  | .NEW_BRUNSWICK => "NB"
  | .NOVA_SCOTIA => "NS"
  | .NEWFOUNDLAND => "NL"
  | .PRINCE_EDWARD_ISLAND => "PE"
  | .SASKATCHEWAN => "SK"
  | .NORTHWEST_TERRITORIES => "NT"
  | .YUKON => "YT"
  | .NUNAVUT => "NU"

/-- Object.keys(PROVINCE_CODES): the keys in insertion order. -/
def provinceKeys : List ProvinceKey :=
  [ProvinceKey.ONTARIO, .QUEBEC, .ALBERTA, .BRITISH_COLUMBIA, .MANITOBA, .NEW_BRUNSWICK,
   .NOVA_SCOTIA, .NEWFOUNDLAND, .PRINCE_EDWARD_ISLAND, .SASKATCHEWAN,
   .NORTHWEST_TERRITORIES, .YUKON, .NUNAVUT]

/-- The LocalizedProvince view: key, locale-specific display name, stable
code. -/
structure LocalizedProvince where
  key : ProvinceKey
  name : String
  code : String

/-- Embeds getLocalizedProvince: pair a key with its display name from the
locale configuration province section and its stable code. -/
def getLocalizedProvince (provinceKey : ProvinceKey)
    (provinces : ProvinceKey → String) : LocalizedProvince :=
  { key := provinceKey, name := provinces provinceKey, code := PROVINCE_CODES provinceKey }

/-- Embeds getAllLocalizedProvinces: the localized view of every key, in
key declaration order. -/
def getAllLocalizedProvinces (provinces : ProvinceKey → String) : List LocalizedProvince :=
  provinceKeys.map (fun key => getLocalizedProvince key provinces)

/-- Embeds getProvinceCodeFromName (provinces.types.ts lines 72-80): find
the first province whose localized name equals the argument and return its
code, with the JavaScript or-with-empty-string fallback producing the
empty-string sentinel when nothing is found. -/
def getProvinceCodeFromName (provinceName : String)
    (provinces : ProvinceKey → String) : String :=
  match (getAllLocalizedProvinces provinces).find? (fun p => p.name == provinceName) with
  | some province => if province.code == "" then "" else province.code
  | none => ""

/-- The locale selector restricted to the two supported locales. -/
inductive LocaleKey where
  | en
  | fr
deriving DecidableEq

/-- The stored urls document of one locale: route templates for signup,
login and the terms-of-service link. -/
structure UrlsSection where
  signup : String
  login : String
  termsOfService : String
deriving DecidableEq

/-- The urls field of the combined LocaleConfig. -/
structure ResolvedUrls where
  signup : String
  baseUrl : String
  login : String
  termsOfService : String
deriving DecidableEq

/-- Modelled from the spec: the three stored documents of one locale read
by the loader from the configuration store, whose concrete contents
(the i18n JSON files) are not part of the sources given here; the signup
and provinces sections are carried abstractly and the urls section holds
route templates that are, per the spec, relative paths or absolute URLs. -/
structure LocaleFiles (σ π : Type) where
  signup : σ
  provinces : π
  urls : UrlsSection

/-- The combined LocaleConfig produced by the loader. -/
structure LocaleConfig (σ π : Type) where
  signup : σ
  provinces : π
  urls : ResolvedUrls

/-- The trailing-slash normalization of the loader: drop a final slash if
present. -/
def stripTrailingSlash (baseUrl : String) : String :=
  if baseUrl.data.getLast? = some '/' then String.mk baseUrl.data.dropLast else baseUrl

/-- Whether a template already begins with the recognized scheme marker
http, embedding the startsWith test of the loader. -/
def urlIsAbsolute (t : String) : Bool := List.isPrefixOf "http".data t.data

/-- Embeds loadLocaleConfig (locale-loader.ts lines 23-56) over an
explicit configuration store: combine the three stored sections, default
the baseUrl field to the supplied base or the empty string, and, when a
base URL is supplied (and truthy), replace the urls section by the
resolved one: signup and login are the stored templates concatenated onto
the slash-stripped base, and termsOfService is kept unchanged when it
already starts with http and is otherwise concatenated onto the fixed
host of the production site. -/
def loadLocaleConfig {σ π : Type} (store : LocaleKey → LocaleFiles σ π)
    (locale : LocaleKey) (baseUrl : Option String) : LocaleConfig σ π :=
  let files := store locale
  let urls := files.urls
  let config : LocaleConfig σ π :=
    { signup := files.signup
      provinces := files.provinces
      urls :=
        { signup := urls.signup
          login := urls.login
          termsOfService := urls.termsOfService
          baseUrl := (baseUrl.getD "") } }
  match baseUrl with
  | none => config
  | some b =>
    if b = "" then config
    else
      let base := stripTrailingSlash b
      { config with
        urls :=
          { signup := base ++ urls.signup
            baseUrl := base
            login := base ++ urls.login
            termsOfService :=
              if urlIsAbsolute urls.termsOfService then urls.termsOfService
              else "https://www.nesto.ca" ++ urls.termsOfService } }

/-- Modelled from the spec (section 4.2): the URL resolution rule the
specification describes, stated as a second definition for comparison
with the loader. The trailing slash of the base is stripped, each route
template is concatenated onto the normalized base, and any template that
is already absolute (begins with the recognized scheme marker) is passed
through unchanged rather than concatenated. -/
def specResolveUrls (urls : UrlsSection) (b : String) : ResolvedUrls :=
  let base := stripTrailingSlash b
  let resolve := fun (t : String) => if urlIsAbsolute t then t else base ++ t
  { signup := resolve urls.signup
    baseUrl := base
    login := resolve urls.login
    termsOfService := resolve urls.termsOfService }

/-- A concrete configuration store used in concrete evaluations: relative
signup and login templates and a relative terms-of-service template. -/
def exampleStore : LocaleKey → LocaleFiles Unit Unit :=
  fun _ => ⟨(), (), ⟨"/signup", "/login", "/legal/terms"⟩⟩

/-- A concrete configuration store whose signup template is already an
absolute URL, a shape the stored urls document admits. -/
def exampleStoreAbs : LocaleKey → LocaleFiles Unit Unit :=
  fun _ => ⟨(), (), ⟨"https://other.example/signup", "/login", "https://www.nesto.ca/terms"⟩⟩

/-- Characterization of the password validator: validity is equivalent to
the conjunction of the five rules, validity is equivalent to the error
list being empty, and each error message is present exactly when its rule
is violated. -/
theorem isValidPassword_characterization (p : String) :
    ((isValidPassword p).isValid = true ↔
      (12 ≤ p.length ∧ p.length ≤ 32 ∧ p.data.any isUpperChar = true ∧
       p.data.any isLowerChar = true ∧ p.data.any isDigitChar = true)) ∧
    ((isValidPassword p).isValid = true ↔ (isValidPassword p).errors = []) ∧
    (passwordErrorMinLength ∈ (isValidPassword p).errors ↔ p.length < 12) ∧
    (passwordErrorMaxLength ∈ (isValidPassword p).errors ↔ 32 < p.length) ∧
    (passwordErrorUppercase ∈ (isValidPassword p).errors ↔ p.data.any isUpperChar = false) ∧
    (passwordErrorLowercase ∈ (isValidPassword p).errors ↔ p.data.any isLowerChar = false) ∧
    (passwordErrorNumber ∈ (isValidPassword p).errors ↔ p.data.any isDigitChar = false) := by
  by_cases h1 : p.length < 12 <;> by_cases h2 : 32 < p.length <;>
    by_cases h3 : p.data.any isUpperChar = true <;>
    by_cases h4 : p.data.any isLowerChar = true <;>
    by_cases h5 : p.data.any isDigitChar = true <;>
    simp_all [isValidPassword, passwordErrorMinLength, passwordErrorMaxLength,
      passwordErrorUppercase, passwordErrorLowercase, passwordErrorNumber]

/-- C3: for every string password, the validator reports it valid iff its
length is between 12 and 32 inclusive and it contains at least one
uppercase ASCII letter, one lowercase ASCII letter and one digit; the
error list carries one entry per violated rule simultaneously, and
validity is equivalent to the error list being empty. -/
theorem password_validator_rules_c3 (p : String) :
    ((isValidPassword p).isValid = true ↔
      (12 ≤ p.length ∧ p.length ≤ 32 ∧ p.data.any isUpperChar = true ∧
       p.data.any isLowerChar = true ∧ p.data.any isDigitChar = true)) ∧
    ((isValidPassword p).isValid = true ↔ (isValidPassword p).errors = []) ∧
    (passwordErrorMinLength ∈ (isValidPassword p).errors ↔ p.length < 12) ∧
    (passwordErrorMaxLength ∈ (isValidPassword p).errors ↔ 32 < p.length) ∧
    (passwordErrorUppercase ∈ (isValidPassword p).errors ↔ p.data.any isUpperChar = false) ∧
    (passwordErrorLowercase ∈ (isValidPassword p).errors ↔ p.data.any isLowerChar = false) ∧
    (passwordErrorNumber ∈ (isValidPassword p).errors ↔ p.data.any isDigitChar = false) :=
  isValidPassword_characterization p

/-- Witness for C3 at a concrete short password. -/
theorem password_validator_rules_c3_witness :
    passwordErrorMinLength ∈ (isValidPassword "Short1").errors :=
  (password_validator_rules_c3 "Short1").2.2.1.mpr (by decide)

/-- C4: for every sequence of random draws and every rearrangement the
randomized sort may produce, the generated password has length exactly 12,
contains at least one uppercase letter, one lowercase letter and one
digit, and is accepted by the password validator with zero violations. -/
theorem password_generator_postcondition_c4 (u l n : Nat) (rest : List Nat)
    (shuffle : List Char → List Char)
    (hu : u < 26) (hl : l < 26) (hn : n < 10)
    (hrest : rest.length = 9)
    (hshuffle : ∀ cs : List Char, (shuffle cs).Perm cs) :
    (generateValidPassword u l n rest shuffle).length = 12 ∧
    (generateValidPassword u l n rest shuffle).data.any isUpperChar = true ∧
    (generateValidPassword u l n rest shuffle).data.any isLowerChar = true ∧
    (generateValidPassword u l n rest shuffle).data.any isDigitChar = true ∧
    (isValidPassword (generateValidPassword u l n rest shuffle)).isValid = true ∧
    (isValidPassword (generateValidPassword u l n rest shuffle)).errors = [] := by
  have hup : isUpperChar (uppercaseChars.data.getD u ' ') = true := by
    have h : ∀ i, i < 26 → isUpperChar (uppercaseChars.data.getD i ' ') = true := by decide
    exact h u hu
  have hlo : isLowerChar (lowercaseChars.data.getD l ' ') = true := by
    have h : ∀ i, i < 26 → isLowerChar (lowercaseChars.data.getD i ' ') = true := by decide
    exact h l hl
  have hdi : isDigitChar (numberChars.data.getD n ' ') = true := by
    have h : ∀ i, i < 10 → isDigitChar (numberChars.data.getD i ' ') = true := by decide
    exact h n hn
  set randomUpper := uppercaseChars.data.getD u ' ' with hru
  set randomLower := lowercaseChars.data.getD l ' ' with hrl
  set randomNumber := numberChars.data.getD n ' ' with hrn
  set remaining := rest.map (fun i => allChars.data.getD i ' ') with hrem
  set base := randomUpper :: randomLower :: randomNumber :: remaining with hbase
  have hperm : (shuffle base).Perm base := hshuffle base
  have hpw : (generateValidPassword u l n rest shuffle).data = shuffle base := rfl
  have hlen : (generateValidPassword u l n rest shuffle).length = 12 := by
    show (generateValidPassword u l n rest shuffle).data.length = 12
    rw [hpw, hperm.length_eq, hbase]
    simp [hrem, hrest]
  have hanyU : (generateValidPassword u l n rest shuffle).data.any isUpperChar = true := by
    rw [hpw]
    exact List.any_eq_true.mpr ⟨randomUpper, hperm.mem_iff.mpr (by simp [hbase]), hup⟩
  have hanyL : (generateValidPassword u l n rest shuffle).data.any isLowerChar = true := by
    rw [hpw]
    exact List.any_eq_true.mpr ⟨randomLower, hperm.mem_iff.mpr (by simp [hbase]), hlo⟩
  have hanyD : (generateValidPassword u l n rest shuffle).data.any isDigitChar = true := by
    rw [hpw]
    exact List.any_eq_true.mpr ⟨randomNumber, hperm.mem_iff.mpr (by simp [hbase]), hdi⟩
  have hvalid : (isValidPassword (generateValidPassword u l n rest shuffle)).isValid = true :=
    (isValidPassword_characterization _).1.mpr ⟨by omega, by omega, hanyU, hanyL, hanyD⟩
  refine ⟨hlen, hanyU, hanyL, hanyD, hvalid, ?_⟩
  exact ((isValidPassword_characterization _).2.1).mp hvalid

/-- Witness for C4 at a concrete draw sequence with the identity
rearrangement. -/
theorem password_generator_postcondition_c4_witness :
    (generateValidPassword 0 0 0 [0, 0, 0, 0, 0, 0, 0, 0, 0] id).length = 12 ∧
    (generateValidPassword 0 0 0 [0, 0, 0, 0, 0, 0, 0, 0, 0] id).data.any isUpperChar = true ∧
    (generateValidPassword 0 0 0 [0, 0, 0, 0, 0, 0, 0, 0, 0] id).data.any isLowerChar = true ∧
    (generateValidPassword 0 0 0 [0, 0, 0, 0, 0, 0, 0, 0, 0] id).data.any isDigitChar = true ∧
    (isValidPassword (generateValidPassword 0 0 0 [0, 0, 0, 0, 0, 0, 0, 0, 0] id)).isValid = true ∧
    (isValidPassword (generateValidPassword 0 0 0 [0, 0, 0, 0, 0, 0, 0, 0, 0] id)).errors = [] :=
  password_generator_postcondition_c4 0 0 0 [0, 0, 0, 0, 0, 0, 0, 0, 0] id
    (by decide) (by decide) (by decide) (by decide) (fun cs => List.Perm.refl cs)

/-- C2 counterexample: the validator accepts the address with consecutive
dots in the local part that the claim says it rejects. -/
theorem email_validator_counterexample_c2 :
    isValidEmail "invalid..email@example.com" = true := rfl

/-- Soundness of the anchored one-or-more tail: matching means the list is
nonempty and all its characters are in the class. -/
theorem emailPlusEnd_sound {cs : List Char} (h : emailPlusEnd cs = true) :
    cs ≠ [] ∧ ∀ c ∈ cs, emailCharOk c = true := by
  unfold emailPlusEnd at h
  simp only [Bool.and_eq_true] at h
  rcases h with ⟨h1, h2⟩
  refine ⟨?_, ?_⟩
  · intro hnil
    subst hnil
    simp at h1
  · exact fun c hc => List.all_eq_true.mp h2 c hc

/-- Soundness of the domain tail matcher: a match splits the list at a
literal dot, with class characters before it and a nonempty run of class
characters after it. -/
theorem emailDomainTail_sound :
    ∀ {cs : List Char}, emailDomainTail cs = true →
      ∃ b c, cs = b ++ '.' :: c ∧ (∀ x ∈ b, emailCharOk x = true) ∧
        c ≠ [] ∧ (∀ x ∈ c, emailCharOk x = true) := by
  intro cs
  induction cs with
  | nil => intro h; simp [emailDomainTail] at h
  | cons a t ih =>
    intro h
    unfold emailDomainTail at h
    simp only [Bool.or_eq_true, Bool.and_eq_true] at h
    rcases h with ⟨ha, ht⟩ | ⟨ha, ht⟩
    · have ha' : a = '.' := by simpa using ha
      rcases emailPlusEnd_sound ht with ⟨hne, hall⟩
      exact ⟨[], t, by simp [ha'], by simp, hne, hall⟩
    · rcases ih ht with ⟨b, c, rfl, hb, hc, hcall⟩
      exact ⟨a :: b, c, rfl, by simpa [ha] using hb, hc, hcall⟩

/-- Soundness of the domain matcher: a nonempty run of class characters, a
literal dot, then a nonempty run of class characters. -/
theorem emailDomain_sound {cs : List Char} (h : emailDomain cs = true) :
    ∃ b c, cs = b ++ '.' :: c ∧ b ≠ [] ∧ (∀ x ∈ b, emailCharOk x = true) ∧
      c ≠ [] ∧ (∀ x ∈ c, emailCharOk x = true) := by
  cases cs with
  | nil => simp [emailDomain] at h
  | cons a t =>
    unfold emailDomain at h
    simp only [Bool.and_eq_true] at h
    rcases h with ⟨ha, ht⟩
    rcases emailDomainTail_sound ht with ⟨b, c, rfl, hb, hc, hcall⟩
    exact ⟨a :: b, c, rfl, by simp, by simpa [ha] using hb, hc, hcall⟩

/-- Soundness of the local tail matcher: the remaining characters split at
an at sign into class characters and a matching domain. -/
theorem emailLocalTail_sound :
    ∀ {cs : List Char}, emailLocalTail cs = true →
      ∃ lcl dom, cs = lcl ++ '@' :: dom ∧ (∀ x ∈ lcl, emailCharOk x = true) ∧
        emailDomain dom = true := by
  intro cs
  induction cs with
  | nil => intro h; simp [emailLocalTail] at h
  | cons a t ih =>
    intro h
    unfold emailLocalTail at h
    simp only [Bool.or_eq_true, Bool.and_eq_true] at h
    rcases h with ⟨ha, ht⟩ | ⟨ha, ht⟩
    · have ha' : a = '@' := by simpa using ha
      exact ⟨[], t, by simp [ha'], by simp, ht⟩
    · rcases ih ht with ⟨lcl, dom, rfl, hl, hd⟩
      exact ⟨a :: lcl, dom, rfl, by simpa [ha] using hl, hd⟩

/-- Soundness of the email validator: acceptance implies the shape
local-part, at sign, domain, with class characters throughout, a nonempty
local part, and a dot in the domain with nonempty runs on both sides. -/
theorem isValidEmail_sound (s : String) (h : isValidEmail s = true) :
    ∃ lcl dom, s.data = lcl ++ '@' :: dom ∧ lcl ≠ [] ∧
      (∀ x ∈ lcl, emailCharOk x = true) ∧ (∀ x ∈ dom, emailCharOk x = true) ∧
      ∃ b c, dom = b ++ '.' :: c ∧ b ≠ [] ∧ c ≠ [] := by
  unfold isValidEmail at h
  cases hd : s.data with
  | nil => rw [hd] at h; simp at h
  | cons a t =>
    rw [hd] at h
    simp only [Bool.and_eq_true] at h
    rcases h with ⟨ha, ht⟩
    rcases emailLocalTail_sound ht with ⟨lcl, dom, rfl, hl, hdom⟩
    rcases emailDomain_sound hdom with ⟨b, c, rfl, hbne, hb, hcne, hc⟩
    refine ⟨a :: lcl, b ++ '.' :: c, by simp, by simp, ?_, ?_, b, c, rfl, hbne, hcne⟩
    · intro x hx
      rcases List.mem_cons.mp hx with rfl | hx
      · exact ha
      · exact hl x hx
    · intro x hx
      rcases List.mem_append.mp hx with hx | hx
      · exact hb x hx
      · rcases List.mem_cons.mp hx with rfl | hx
        · decide
        · exact hc x hx

/-- C2 amended: the validator rejects the addresses without an at sign,
without a domain, or without a local part, accepts the address with
consecutive dots in the local part (the pattern does not reject repeated
dots), accepts the well-formed address, and in general accepts a string
only if it has the shape local-part, at sign, domain, with no whitespace
and no further at sign in either part, a nonempty local part, and a dot
inside the domain with nonempty runs of class characters on both sides. -/
theorem email_validator_amended_c2 :
    isValidEmail "invalid-email" = false ∧
    isValidEmail "invalid@" = false ∧
    isValidEmail "@invalid.com" = false ∧
    isValidEmail "invalid..email@example.com" = true ∧
    isValidEmail "john.doe@example.com" = true ∧
    (∀ s : String, isValidEmail s = true →
      ∃ lcl dom, s.data = lcl ++ '@' :: dom ∧ lcl ≠ [] ∧
        (∀ x ∈ lcl, emailCharOk x = true) ∧ (∀ x ∈ dom, emailCharOk x = true) ∧
        ∃ b c, dom = b ++ '.' :: c ∧ b ≠ [] ∧ c ≠ []) :=
  ⟨rfl, rfl, rfl, rfl, rfl, isValidEmail_sound⟩

/-- Witness for the general part of C2 amended at the accepted concrete
address. -/
theorem email_validator_amended_c2_witness :
    ∃ lcl dom, ("john.doe@example.com" : String).data = lcl ++ '@' :: dom ∧ lcl ≠ [] ∧
      (∀ x ∈ lcl, emailCharOk x = true) ∧ (∀ x ∈ dom, emailCharOk x = true) ∧
      ∃ b c, dom = b ++ '.' :: c ∧ b ≠ [] ∧ c ≠ [] :=
  email_validator_amended_c2.2.2.2.2.2 "john.doe@example.com" (by decide)

/-- C5: in equals mode the verifier succeeds iff the resolved value is
present and strictly equal to the expected value; in contains mode iff it
is present and the textual form of the expected value occurs inside the
textual form of the resolved value; in both modes a missing (undefined or
null) resolved value fails with the diagnostic naming the field and the
expected value; and the cited concrete contains example succeeds with an
empty message. -/
theorem response_verifier_eq_contains_c5 (payload : JsValue) (fieldPath : String)
    (expectedValue : JsValue) :
    ((verifyResponseBodyValue payload fieldPath expectedValue .equals).isValid = true ↔
      (isDefinedJs (getNestedValue payload fieldPath) = true ∧
       jsStrictEq (getNestedValue payload fieldPath) expectedValue = true)) ∧
    ((verifyResponseBodyValue payload fieldPath expectedValue .contains).isValid = true ↔
      (isDefinedJs (getNestedValue payload fieldPath) = true ∧
       jsIncludes (jsToString (getNestedValue payload fieldPath)).data
         (jsToString expectedValue).data = true)) ∧
    (isDefinedJs (getNestedValue payload fieldPath) = false →
      verifyResponseBodyValue payload fieldPath expectedValue .equals =
        ⟨false, fieldPath ++ " is missing. Expected: " ++ compactStringifyTemplate expectedValue ++
          ", but field is undefined. Full response: " ++ fullResponseString payload⟩ ∧
      verifyResponseBodyValue payload fieldPath expectedValue .contains =
        ⟨false, fieldPath ++ " is missing. Expected: " ++ compactStringifyTemplate expectedValue ++
          ", but field is undefined. Full response: " ++ fullResponseString payload⟩) ∧
    verifyResponseBodyValue (.obj (.cons "error" (.str "invalid password") .nil)) "error"
      (.str "invalid password") .contains = ⟨true, ""⟩ := by
  refine ⟨?_, ?_, ?_, rfl⟩ <;>
    cases hv : getNestedValue payload fieldPath <;>
      simp [verifyResponseBodyValue, hv, isDefinedJs, jsIsUndefined, jsIsNull]

/-- Witness for C5 at a concrete payload with a present field, discharging
the missing-value hypothesis vacuously through the other conjuncts. -/
theorem response_verifier_eq_contains_c5_witness :
    verifyResponseBodyValue (.obj (.cons "error" (.str "invalid password") .nil)) "error"
      (.str "invalid password") .contains = ⟨true, ""⟩ ∧
    (verifyResponseBodyValue (.obj .nil) "error" (.str "x") .equals =
      ⟨false, "error" ++ " is missing. Expected: " ++ compactStringifyTemplate (.str "x") ++
        ", but field is undefined. Full response: " ++ fullResponseString (.obj .nil)⟩) :=
  ⟨(response_verifier_eq_contains_c5 (.obj (.cons "error" (.str "invalid password") .nil))
      "error" (.str "invalid password")).2.2.2,
   ((response_verifier_eq_contains_c5 (.obj .nil) "error" (.str "x")).2.2.1 (by decide)).1⟩

/-- C6: in defined mode the verifier succeeds iff the resolved value is
neither undefined nor null, the expected value has no influence, success
yields an empty message, failure yields the diagnostic naming the field
path and embedding the full payload dump, and the two cited concrete
payloads behave as stated. -/
theorem response_verifier_defined_c6 (payload : JsValue) (fieldPath : String)
    (e₁ e₂ : JsValue) :
    verifyResponseBodyValue payload fieldPath e₁ .defined =
      verifyResponseBodyValue payload fieldPath e₂ .defined ∧
    ((verifyResponseBodyValue payload fieldPath e₁ .defined).isValid = true ↔
      isDefinedJs (getNestedValue payload fieldPath) = true) ∧
    (isDefinedJs (getNestedValue payload fieldPath) = true →
      verifyResponseBodyValue payload fieldPath e₁ .defined = ⟨true, ""⟩) ∧
    (isDefinedJs (getNestedValue payload fieldPath) = false →
      verifyResponseBodyValue payload fieldPath e₁ .defined =
        ⟨false, fieldPath ++ " is missing or undefined. Full response: " ++
          fullResponseString payload⟩) ∧
    verifyResponseBodyValue
      (.obj (.cons "oauth" (.obj (.cons "access_token" (.str "x") .nil)) .nil))
      "oauth.access_token" (.str "") .defined = ⟨true, ""⟩ ∧
    (verifyResponseBodyValue (.obj (.cons "error" (.str "invalid password") .nil)) "token"
        (.str "") .defined).isValid = false ∧
    jsIncludes (verifyResponseBodyValue (.obj (.cons "error" (.str "invalid password") .nil))
        "token" (.str "") .defined).errorMessage.data "token".data = true ∧
    jsIncludes (verifyResponseBodyValue (.obj (.cons "error" (.str "invalid password") .nil))
        "token" (.str "") .defined).errorMessage.data
      (fullResponseString (.obj (.cons "error" (.str "invalid password") .nil))).data = true := by
  refine ⟨?_, ?_, ?_, ?_, rfl, by decide, by decide, by decide⟩ <;>
    cases hv : getNestedValue payload fieldPath <;>
      simp [verifyResponseBodyValue, hv, isDefinedJs, jsIsUndefined, jsIsNull]

/-- Witness for C6 at concrete payloads, discharging the presence and
absence hypotheses at concrete inputs. -/
theorem response_verifier_defined_c6_witness :
    verifyResponseBodyValue
      (.obj (.cons "oauth" (.obj (.cons "access_token" (.str "x") .nil)) .nil))
      "oauth.access_token" (.str "") .defined = ⟨true, ""⟩ ∧
    verifyResponseBodyValue (.obj (.cons "error" (.str "invalid password") .nil)) "token"
      (.str "") .defined =
      ⟨false, "token" ++ " is missing or undefined. Full response: " ++
        fullResponseString (.obj (.cons "error" (.str "invalid password") .nil))⟩ :=
  ⟨(response_verifier_defined_c6
      (.obj (.cons "oauth" (.obj (.cons "access_token" (.str "x") .nil)) .nil))
      "oauth.access_token" (.str "") (.str "")).2.2.1 (by decide),
   (response_verifier_defined_c6 (.obj (.cons "error" (.str "invalid password") .nil))
      "token" (.str "") (.str "")).2.2.2.1 (by decide)⟩

/-- C10: calling the verifier with the comparison argument omitted is the
same as calling it with the contains mode, for every payload, field path
and expected value. -/
theorem default_mode_is_contains_c10 (payload : JsValue) (fieldPath : String)
    (expectedValue : JsValue) :
    verifyResponseBodyValueNoMode payload fieldPath expectedValue =
      verifyResponseBodyValue payload fieldPath expectedValue .contains := rfl

/-- Every province key occurs in the enumeration order list. -/
theorem provinceKey_mem (k : ProvinceKey) : k ∈ provinceKeys := by
  cases k <;> decide

/-- No province code is the empty string. -/
theorem PROVINCE_CODES_ne_empty (k : ProvinceKey) : (PROVINCE_CODES k == "") = false := by
  cases k <;> decide

/-- C8: the inverse lookup from display name to code is total; when the
name equals some province's localized name in the given configuration it
returns that province's code, and when no province matches it returns the
empty-string sentinel. -/
theorem province_inverse_lookup_c8 (provinces : ProvinceKey → String) (name : String) :
    (∃ k, provinces k = name ∧ getProvinceCodeFromName name provinces = PROVINCE_CODES k) ∨
    ((∀ k, provinces k ≠ name) ∧ getProvinceCodeFromName name provinces = "") := by
  cases hf : (getAllLocalizedProvinces provinces).find? (fun p => p.name == name) with
  | none =>
    right
    constructor
    · intro k hk
      have hmem : getLocalizedProvince k provinces ∈ getAllLocalizedProvinces provinces :=
        List.mem_map_of_mem _ (provinceKey_mem k)
      have hnm := List.find?_eq_none.mp hf _ hmem
      simp [getLocalizedProvince, hk] at hnm
    · simp [getProvinceCodeFromName, hf]
  | some p =>
    left
    have hp := List.find?_some hf
    have hmem := List.mem_of_find?_eq_some hf
    rcases List.mem_map.mp hmem with ⟨k, _, rfl⟩
    refine ⟨k, ?_, ?_⟩
    · simpa [getLocalizedProvince] using hp
    · simp [getProvinceCodeFromName, hf, getLocalizedProvince, PROVINCE_CODES_ne_empty k]

/-- Witness for C8: a configuration naming every province Ontario, looked
up by that name, and looked up by a name no province carries. -/
theorem province_inverse_lookup_c8_witness :
    ((∃ k, (fun (_ : ProvinceKey) => "Ontario") k = "Ontario" ∧
        getProvinceCodeFromName "Ontario" (fun _ => "Ontario") = PROVINCE_CODES k) ∨
      ((∀ k, (fun (_ : ProvinceKey) => "Ontario") k ≠ "Ontario") ∧
        getProvinceCodeFromName "Ontario" (fun _ => "Ontario") = "")) ∧
    getProvinceCodeFromName "Atlantis" (fun _ => "Ontario") = "" :=
  ⟨province_inverse_lookup_c8 (fun _ => "Ontario") "Ontario", by decide⟩

/-- C1 counterexample: the loader does not follow the claimed rule. On a
store whose terms-of-service template is a relative path (a shape the
stored urls document admits), the template is concatenated onto the fixed
production host instead of the supplied base; and on a store whose signup
template is already absolute, the template is concatenated anyway instead
of being passed through unchanged. -/
theorem loader_url_rule_counterexample_c1 :
    (loadLocaleConfig exampleStore .en (some "https://app.dev.nesto.ca")).urls ≠
      specResolveUrls (exampleStore .en).urls "https://app.dev.nesto.ca" ∧
    (loadLocaleConfig exampleStore .en (some "https://app.dev.nesto.ca")).urls.termsOfService =
      "https://www.nesto.ca/legal/terms" ∧
    (specResolveUrls (exampleStore .en).urls "https://app.dev.nesto.ca").termsOfService =
      "https://app.dev.nesto.ca/legal/terms" ∧
    (loadLocaleConfig exampleStoreAbs .en (some "https://app.dev.nesto.ca")).urls.signup =
      "https://app.dev.nesto.cahttps://other.example/signup" ∧
    (specResolveUrls (exampleStoreAbs .en).urls "https://app.dev.nesto.ca").signup =
      "https://other.example/signup" :=
  ⟨by decide, rfl, rfl, rfl, rfl⟩

/-- C1 amended: for every stored urls section and every truthy base URL,
the loader strips the trailing slash of the base and concatenates the
signup and login templates onto it unconditionally, while the
terms-of-service template is passed through unchanged when it already
begins with http and is otherwise concatenated onto the fixed host
https://www.nesto.ca rather than the supplied base. -/
theorem loader_url_rule_amended_c1 (σ π : Type) (store : LocaleKey → LocaleFiles σ π)
    (locale : LocaleKey) (b : String) (hb : b ≠ "") :
    (loadLocaleConfig store locale (some b)).urls =
      { signup := stripTrailingSlash b ++ (store locale).urls.signup
        baseUrl := stripTrailingSlash b
        login := stripTrailingSlash b ++ (store locale).urls.login
        termsOfService :=
          if urlIsAbsolute (store locale).urls.termsOfService then
            (store locale).urls.termsOfService
          else "https://www.nesto.ca" ++ (store locale).urls.termsOfService } := by
  simp [loadLocaleConfig, hb]

/-- Witness for C1 amended at a concrete store and base URL. -/
theorem loader_url_rule_amended_c1_witness :
    (loadLocaleConfig exampleStore .en (some "https://app.dev.nesto.ca")).urls =
      { signup := stripTrailingSlash "https://app.dev.nesto.ca" ++ (exampleStore .en).urls.signup
        baseUrl := stripTrailingSlash "https://app.dev.nesto.ca"
        login := stripTrailingSlash "https://app.dev.nesto.ca" ++ (exampleStore .en).urls.login
        termsOfService :=
          if urlIsAbsolute (exampleStore .en).urls.termsOfService then
            (exampleStore .en).urls.termsOfService
          else "https://www.nesto.ca" ++ (exampleStore .en).urls.termsOfService } :=
  loader_url_rule_amended_c1 Unit Unit exampleStore .en "https://app.dev.nesto.ca" (by decide)

/-- C9: over identical stored locale-section content, two loads for the
same locale key and base URL yield identical URL fields: the resolution is
a pure function of the store, locale and base. -/
theorem locale_load_deterministic_c9 (σ π : Type) (s₁ s₂ : LocaleKey → LocaleFiles σ π)
    (L : LocaleKey) (B : Option String) (h : ∀ l, s₁ l = s₂ l) :
    (loadLocaleConfig s₁ L B).urls.signup = (loadLocaleConfig s₂ L B).urls.signup ∧
    (loadLocaleConfig s₁ L B).urls.login = (loadLocaleConfig s₂ L B).urls.login ∧
    (loadLocaleConfig s₁ L B).urls.termsOfService =
      (loadLocaleConfig s₂ L B).urls.termsOfService ∧
    (loadLocaleConfig s₁ L B).urls.baseUrl = (loadLocaleConfig s₂ L B).urls.baseUrl := by
  have hL : s₁ = s₂ := funext h
  subst hL
  exact ⟨rfl, rfl, rfl, rfl⟩

/-- Witness for C9 at a concrete store, locale and base URL. -/
theorem locale_load_deterministic_c9_witness :
    (loadLocaleConfig exampleStore .en (some "https://app.dev.nesto.ca")).urls.signup =
      (loadLocaleConfig exampleStore .en (some "https://app.dev.nesto.ca")).urls.signup ∧
    (loadLocaleConfig exampleStore .en (some "https://app.dev.nesto.ca")).urls.login =
      (loadLocaleConfig exampleStore .en (some "https://app.dev.nesto.ca")).urls.login ∧
    (loadLocaleConfig exampleStore .en (some "https://app.dev.nesto.ca")).urls.termsOfService =
      (loadLocaleConfig exampleStore .en (some "https://app.dev.nesto.ca")).urls.termsOfService ∧
    (loadLocaleConfig exampleStore .en (some "https://app.dev.nesto.ca")).urls.baseUrl =
      (loadLocaleConfig exampleStore .en (some "https://app.dev.nesto.ca")).urls.baseUrl :=
  locale_load_deterministic_c9 Unit Unit exampleStore exampleStore .en
    (some "https://app.dev.nesto.ca") (fun _ => rfl)
